import Mathlib

/-!
Verification of the talk-resolution pipeline of the `tedfetch` repository
(package `parser`): slug validation, the structured-API (GraphQL) path, the
markup fallback path, the embedded-script video extractor, the subtitle-link
extractor, and the listing search.

The Go code is shallowly embedded: network effects are passed in explicitly as
fetch outcomes, Go maps become association lists with unique keys, and the Go
standard-library JSON decoding used by `extractVideoURLs` is modelled by an
executable JSON parser plus a typed decoder for the exact nested structure the
source declares.
-/

/-! ## String maps (Go `map[string]string`)

Keys are unique; `mapInsert` overwrites the value of an existing key, so the
list length equals the number of keys, as `len` does on a Go map. The code
under analysis never iterates over a map, so the entry order is irrelevant. -/

/-- Association-list model of Go's `map[string]string`. -/
abbrev StrMap := List (String × String)

/-- Insert a key, overwriting the value if the key is present (Go map assignment). -/
def mapInsert : StrMap → String → String → StrMap
  | [], k, v => [(k, v)]
  | (k', v') :: rest, k, v =>
    if k' == k then (k, v) :: rest else (k', v') :: mapInsert rest k v

/-- Lookup in the map (Go map indexing, `some` iff the key is present). -/
def mapFind : StrMap → String → Option String
  | [], _ => none
  | (k', v') :: rest, k => if k' == k then some v' else mapFind rest k

/-! ## Go string helpers -/

/-- Char-list core of Go's `strings.Contains`: does `pat` occur inside the list? -/
def containsSub : List Char → List Char → Bool
  | [], pat => pat.isEmpty
  | c :: rest, pat => pat.isPrefixOf (c :: rest) || containsSub rest pat

/-- Go's `strings.Contains s pat`. -/
def goContains (s pat : String) : Bool :=
  containsSub s.data pat.data

/-- Go's `strings.HasPrefix`. -/
def goStartsWith (s p : String) : Bool :=
  p.data.isPrefixOf s.data

/-- Split a character list on a separator character; Go's `strings.Split` for
a single-character separator (splitting the empty string gives `[""]`). -/
def splitChar : List Char → Char → List (List Char)
  | [], _ => [[]]
  | c :: rest, sep =>
    if c == sep then [] :: splitChar rest sep
    else
      match splitChar rest sep with
      | [] => [[c]]
      | g :: gs => (c :: g) :: gs

/-- The part of a character list before the first occurrence of a character;
Go's `strings.SplitN(s, sep, 2)[0]` for a single-character separator. -/
def upToChar : List Char → Char → List Char
  | [], _ => []
  | c :: rest, sep => if c == sep then [] else c :: upToChar rest sep

/-- Replace every occurrence of one character; Go's `strings.ReplaceAll` for
the single-character pattern the code uses. -/
def replaceChar (s : String) (a b : Char) : String :=
  String.mk (s.data.map (fun c => if c == a then b else c))

/-- Whitespace as trimmed by Go's `strings.TrimSpace` (the ASCII range the
analysed strings can contain). -/
def isSpaceChar (c : Char) : Bool :=
  c == ' ' || c == '\t' || c == '\n' || c == '\r' || c == '\x0b' || c == '\x0c'

/-- Go's `strings.TrimSpace`. -/
def goTrimSpace (s : String) : String :=
  String.mk (((s.data.dropWhile isSpaceChar).reverse.dropWhile isSpaceChar).reverse)

/-- ASCII lowering of one character (the language codes the code lowercases
are ASCII). -/
def lowerChar (c : Char) : Char :=
  if 'A' ≤ c && c ≤ 'Z' then Char.ofNat (c.toNat + 32) else c

/-- Go's `strings.ToLower`. -/
def goToLower (s : String) : String :=
  String.mk (s.data.map lowerChar)

/-- Go's `strings.Index(s, c)` for a single-character needle (`none` for -1). -/
def firstIndexOf (cs : List Char) (c : Char) : Option Nat :=
  cs.findIdx? (fun x => x == c)

/-- Go's `strings.LastIndex(s, c)` for a single-character needle (`none` for -1). -/
def lastIndexOf (cs : List Char) (c : Char) : Option Nat :=
  match cs.reverse.findIdx? (fun x => x == c) with
  | none => none
  | some i => some (cs.length - 1 - i)

/-! ## JSON values and parser

`extractVideoURLs` feeds a substring of a script tag to `encoding/json`'s
`Unmarshal`. We model the JSON documents this code can meet: objects, arrays,
strings with the common escapes, integer and decimal numbers (a number literal
carries an `exact` flag — Go errors when a non-integer literal is decoded into
an `int64` field), booleans and null. -/

/-- JSON value. `jnum n exact`: `exact` is true iff the literal was a plain
integer (no fraction or exponent), which is what Go accepts for an `int64`. -/
inductive JVal where
  | jnull : JVal
  | jbool : Bool → JVal
  | jnum : Int → Bool → JVal
  | jstr : String → JVal
  | jarr : List JVal → JVal
  | jobj : List (String × JVal) → JVal

/-- Skip JSON whitespace. -/
def skipWs : List Char → List Char
  | [] => []
  | c :: rest =>
    if c == ' ' || c == '\t' || c == '\n' || c == '\r' then skipWs rest else c :: rest

/-- Parse the body of a JSON string literal (after the opening quote), with the
escapes the analysed payloads can contain. -/
def parseStrAux : List Char → List Char → Option (String × List Char)
  | _, [] => none
  | acc, c :: rest =>
    if c == '"' then some (String.mk acc.reverse, rest)
    else if c == '\\' then
      match rest with
      | [] => none
      | e :: rest2 =>
        if e == '"' then parseStrAux ('"' :: acc) rest2
        else if e == '\\' then parseStrAux ('\\' :: acc) rest2
        else if e == '/' then parseStrAux ('/' :: acc) rest2
        else if e == 'n' then parseStrAux ('\n' :: acc) rest2
        else if e == 't' then parseStrAux ('\t' :: acc) rest2
        else if e == 'r' then parseStrAux ('\r' :: acc) rest2
        else none
    else parseStrAux (c :: acc) rest

/-- Consume a run of decimal digits, accumulating their value. -/
def parseDigitsAux : List Char → Nat → Nat × List Char
  | [], acc => (acc, [])
  | c :: rest, acc =>
    if c.isDigit then parseDigitsAux rest (acc * 10 + (c.toNat - 48)) else (acc, c :: rest)

/-- Parse at least one decimal digit. -/
def parseIntPart : List Char → Option (Nat × List Char)
  | [] => none
  | c :: rest => if c.isDigit then some (parseDigitsAux rest (c.toNat - 48)) else none

/-- Parse the tail of an exponent (after `e` or `E`). -/
def parseExpTail (cs : List Char) : Option (List Char) :=
  match cs with
  | c :: rest =>
    if c == '+' || c == '-' then (parseIntPart rest).map (fun p => p.2)
    else (parseIntPart cs).map (fun p => p.2)
  | [] => none

/-- After the integer digits of a number: optional fraction and exponent.
Returns whether the literal was a plain integer. -/
def parseNumTail (cs : List Char) : Option (Bool × List Char) :=
  match cs with
  | '.' :: rest =>
    match parseIntPart rest with
    | none => none
    | some (_, rem) =>
      match rem with
      | c :: rest2 =>
        if c == 'e' || c == 'E' then (parseExpTail rest2).map (fun r => (false, r))
        else some (false, rem)
      | [] => some (false, [])
  | c :: rest =>
    if c == 'e' || c == 'E' then (parseExpTail rest).map (fun r => (false, r))
    else some (true, cs)
  | [] => some (true, [])

/-- Parse one JSON value. Fuel-based so that the definition is structurally
recursive and kernel-reducible; an object or array continues by re-entering the
parser on its opening bracket, which is lenient about a trailing comma (the
payloads under analysis contain none). -/
def parseVal : Nat → List Char → Option (JVal × List Char)
  | 0, _ => none
  | Nat.succ fuel, cs =>
    match skipWs cs with
    | [] => none
    | c :: rest =>
      if c == '"' then
        match parseStrAux [] rest with
        | some (s, rem) => some (JVal.jstr s, rem)
        | none => none
      else if c == '\x7b' then
        match skipWs rest with
        | '\x7d' :: rem => some (JVal.jobj [], rem)
        | '"' :: csk =>
          match parseStrAux [] csk with
          | none => none
          | some (k, afterKey) =>
            match skipWs afterKey with
            | ':' :: afterColon =>
              match parseVal fuel afterColon with
              | none => none
              | some (v, afterVal) =>
                match skipWs afterVal with
                | ',' :: afterComma =>
                  match parseVal fuel ('\x7b' :: afterComma) with
                  | some (JVal.jobj fs, rem) => some (JVal.jobj ((k, v) :: fs), rem)
                  | _ => none
                | '\x7d' :: rem => some (JVal.jobj [(k, v)], rem)
                | _ => none
            | _ => none
        | _ => none
      else if c == '[' then
        match skipWs rest with
        | ']' :: rem => some (JVal.jarr [], rem)
        | cs2 =>
          match parseVal fuel cs2 with
          | none => none
          | some (v, afterVal) =>
            match skipWs afterVal with
            | ',' :: afterComma =>
              match parseVal fuel ('[' :: afterComma) with
              | some (JVal.jarr vs, rem) => some (JVal.jarr (v :: vs), rem)
              | _ => none
            | ']' :: rem => some (JVal.jarr [v], rem)
            | _ => none
      else if c == 't' then
        if ['r', 'u', 'e'].isPrefixOf rest then some (JVal.jbool true, rest.drop 3) else none
      else if c == 'f' then
        if ['a', 'l', 's', 'e'].isPrefixOf rest then some (JVal.jbool false, rest.drop 4) else none
      else if c == 'n' then
        if ['u', 'l', 'l'].isPrefixOf rest then some (JVal.jnull, rest.drop 3) else none
      else if c == '-' then
        match parseIntPart rest with
        | none => none
        | some (n, rem) =>
          match parseNumTail rem with
          | none => none
          | some (exact, rem2) => some (JVal.jnum (-(n : Int)) exact, rem2)
      else if c.isDigit then
        match parseDigitsAux rest (c.toNat - 48) with
        | (n, rem) =>
          match parseNumTail rem with
          | none => none
          | some (exact, rem2) => some (JVal.jnum (n : Int) exact, rem2)
      else none

/-- Parse a whole string as a single JSON document (trailing whitespace only),
as `json.Unmarshal` requires. -/
def parseJson (s : String) : Option JVal :=
  match parseVal (2 * s.length + 8) s.data with
  | none => none
  | some (v, rest) => if (skipWs rest).isEmpty then some v else none

/-! ## Typed decoding (Go `json.Unmarshal` into the declared nested struct)

Decoding follows Go's semantics for the struct declared inside
`extractVideoURLs`: a missing or `null` field leaves the zero value, a field of
the wrong JSON type is an error, unknown fields are ignored, and a duplicated
key keeps the last occurrence. -/

/-- One `h264` entry: `{quality, size, file}` (json tags of the Go struct). -/
structure H264Entry where
  quality : String
  size : Int
  file : String
deriving DecidableEq

/-- `resources` of a player talk. -/
structure PTResources where
  h264 : List H264Entry
deriving DecidableEq

/-- One entry of `player_talks`. -/
structure PlayerTalk where
  resources : PTResources
deriving DecidableEq

/-- One entry of `playerData.talks`. -/
structure PDTalk where
  player_talks : List PlayerTalk
deriving DecidableEq

/-- `playerData`. -/
structure PlayerData where
  talks : List PDTalk
deriving DecidableEq

/-- The whole document decoded by `extractVideoURLs`. -/
structure TalkPageData where
  playerData : PlayerData
deriving DecidableEq

/-- Look a key up in a decoded JSON object; Go's decoder keeps the last
occurrence of a duplicated key. -/
def jlookup (fields : List (String × JVal)) (key : String) : Option JVal :=
  (fields.reverse.find? (fun p => p.1 == key)).map (fun p => p.2)

/-- Decode a string struct field: absent or null gives the zero value. -/
def decStrField (fs : List (String × JVal)) (key : String) : Option String :=
  match jlookup fs key with
  | none => some ""
  | some JVal.jnull => some ""
  | some (JVal.jstr s) => some s
  | some _ => none

/-- Decode an `int64` struct field: absent or null gives zero, a non-integer
number literal is an error. -/
def decIntField (fs : List (String × JVal)) (key : String) : Option Int :=
  match jlookup fs key with
  | none => some 0
  | some JVal.jnull => some 0
  | some (JVal.jnum n true) => some n
  | some _ => none

/-- Decode one `h264` array element. -/
def decodeH264Entry : JVal → Option H264Entry
  | JVal.jnull => some { quality := "", size := 0, file := "" }
  | JVal.jobj fs =>
    match decStrField fs "quality" with
    | none => none
    | some q =>
      match decIntField fs "size" with
      | none => none
      | some sz =>
        match decStrField fs "file" with
        | none => none
        | some f => some { quality := q, size := sz, file := f }
  | _ => none

/-- Decode the `h264` field. -/
def decodeH264List : Option JVal → Option (List H264Entry)
  | none => some []
  | some JVal.jnull => some []
  | some (JVal.jarr xs) => xs.mapM decodeH264Entry
  | some _ => none

/-- Decode the `resources` field. -/
def decodeResources : Option JVal → Option PTResources
  | none => some { h264 := [] }
  | some JVal.jnull => some { h264 := [] }
  | some (JVal.jobj fs) => (decodeH264List (jlookup fs "h264")).map (fun l => { h264 := l })
  | some _ => none

/-- Decode one `player_talks` array element. -/
def decodePlayerTalk : JVal → Option PlayerTalk
  | JVal.jnull => some { resources := { h264 := [] } }
  | JVal.jobj fs => (decodeResources (jlookup fs "resources")).map (fun r => { resources := r })
  | _ => none

/-- Decode the `player_talks` field. -/
def decodePlayerTalkList : Option JVal → Option (List PlayerTalk)
  | none => some []
  | some JVal.jnull => some []
  | some (JVal.jarr xs) => xs.mapM decodePlayerTalk
  | some _ => none

/-- Decode one `talks` array element. -/
def decodePDTalk : JVal → Option PDTalk
  | JVal.jnull => some { player_talks := [] }
  | JVal.jobj fs =>
    (decodePlayerTalkList (jlookup fs "player_talks")).map (fun l => { player_talks := l })
  | _ => none

/-- Decode the `talks` field. -/
def decodePDTalkList : Option JVal → Option (List PDTalk)
  | none => some []
  | some JVal.jnull => some []
  | some (JVal.jarr xs) => xs.mapM decodePDTalk
  | some _ => none

/-- Decode the `playerData` field. -/
def decodePlayerData : Option JVal → Option PlayerData
  | none => some { talks := [] }
  | some JVal.jnull => some { talks := [] }
  | some (JVal.jobj fs) => (decodePDTalkList (jlookup fs "talks")).map (fun l => { talks := l })
  | some _ => none

/-- Decode the top-level document (Go errors when the top level is neither an
object nor null). -/
def decodeTalkPageData : JVal → Option TalkPageData
  | JVal.jnull => some { playerData := { talks := [] } }
  | JVal.jobj fs => (decodePlayerData (jlookup fs "playerData")).map (fun d => { playerData := d })
  | _ => none

/-- `json.Unmarshal(jsonData, &data)` of `extractVideoURLs`: parse then decode;
`none` is a decode error (which the code logs and skips). -/
def unmarshalTalkPage (s : String) : Option TalkPageData :=
  (parseJson s).bind decodeTalkPageData

/-! ## Data model (`Talk`, `VideoFormat`) -/

/-- A video format entry of a talk (fields as in the Go struct). -/
structure VideoFormat where
  Quality : String
  URL : String
  Size : Int
deriving DecidableEq

/-- A TED talk with its metadata (fields as in the Go struct; collection fields
default to empty, which stands for Go's zero values). -/
structure Talk where
  Title : String := ""
  Speaker : String := ""
  URL : String := ""
  Description : String := ""
  Duration : String := ""
  PublishedDate : String := ""
  Views : String := ""
  VideoURLs : StrMap := []
  VideoFormats : List VideoFormat := []
  SubtitleURLs : StrMap := []
deriving DecidableEq

/-- The site base URL (`var baseURL` of the source). -/
def baseURL : String := "https://www.ted.com"

/-! ## Markup documents and fetch outcomes

The goquery document is modelled by exactly the features the parser reads:
the text of the first `h1` and first `h2` (empty when the selection is empty),
the text of every `script` element in document order, and every anchor that
carries a `data-language` attribute, with that attribute's value and its
optional `href`.

A network fetch is an explicit outcome passed into the function that performs
it. `page status doc` carries the HTTP status code; the parser never inspects
it (the source never reads `resp.StatusCode`), so it only matters to
statements about it. -/

/-- An anchor selected by `a[data-language]`. -/
structure Anchor where
  lang : String
  href : Option String
deriving DecidableEq

/-- The queryable features of a fetched talk page. -/
structure HtmlDoc where
  h1 : String
  h2 : String
  scripts : List String
  anchors : List Anchor
deriving DecidableEq

/-- Outcome of fetching one HTML page: transport error (`client.Get` /
`http.Get` returned an error), body read error (`io.ReadAll`), markup parse
error (`goquery.NewDocumentFromReader`), or a response with its status code
and parsed document. -/
inductive PageFetch where
  | transportErr : PageFetch
  | readErr : PageFetch
  | parseErr : PageFetch
  | page : Nat → HtmlDoc → PageFetch
deriving DecidableEq

/-! ## Extractors (`extractVideoURLs`, `extractSubtitleURLs`) -/

/-- The per-entry loop over the decoded `h264` list: append a `VideoFormat`
and record `VideoURLs[quality] = file`. -/
def h264Fold (fmts : List VideoFormat) (urls : StrMap) (entries : List H264Entry) :
    List VideoFormat × StrMap :=
  entries.foldl
    (fun st h => (st.1 ++ [{ Quality := h.quality, URL := h.file, Size := h.size }],
                  mapInsert st.2 h.quality h.file))
    (fmts, urls)

/-- The body of the `Each` closure of `extractVideoURLs` for one script
element. `none` models the run-time panic of the slice expression
`text[start : end+1]` when `start > end+1` (the code only checks that both
indices are not -1). A decode failure is logged and skipped; entries are used
only when `talks` and `talks[0].player_talks` are non-empty. -/
def processScript (fmts : List VideoFormat) (urls : StrMap) (text : String) :
    Option (List VideoFormat × StrMap) :=
  if goContains text "talkPage.init" then
    match firstIndexOf text.data '\x7b', lastIndexOf text.data '\x7d' with
    | some start, some stop =>
      if start ≤ stop + 1 then
        match unmarshalTalkPage (String.mk ((text.data.drop start).take (stop + 1 - start))) with
        | none => some (fmts, urls)
        | some data =>
          match data.playerData.talks with
          | [] => some (fmts, urls)
          | t0 :: _ =>
            match t0.player_talks with
            | [] => some (fmts, urls)
            | pt0 :: _ => some (h264Fold fmts urls pt0.resources.h264)
      else none
    | _, _ => some (fmts, urls)
  else some (fmts, urls)

/-- `extractVideoURLs`: every `script` element is visited in document order
(the `Each` callback cannot stop the iteration); the accumulated video formats
and URL map are threaded through. `none` models a propagating panic. -/
def extractVideoURLs : List String → List VideoFormat → StrMap →
    Option (List VideoFormat × StrMap)
  | [], fmts, urls => some (fmts, urls)
  | s :: rest, fmts, urls =>
    match processScript fmts urls s with
    | none => none
    | some st => extractVideoURLs rest st.1 st.2

/-- `extractSubtitleURLs`: fresh map; for each `a[data-language]` anchor with a
present `href` and non-empty language, record the language's URL, prefixing
relative URLs with the base URL. -/
def extractSubtitleURLs (anchors : List Anchor) : StrMap :=
  anchors.foldl
    (fun m a =>
      match a.href with
      | none => m
      | some u =>
        if a.lang == "" then m
        else mapInsert m a.lang (if goStartsWith u "http" then u else baseURL ++ u))
    []

/-! ## Structured-API path (`parseWithGraphQL`) -/

/-- `nativeDownloads` of a GraphQL node (decoded but never read by the code). -/
structure NativeDownloads where
  low : String := ""
  medium : String := ""
  high : String := ""
deriving DecidableEq

/-- One `subtitledDownloads` entry of a GraphQL node. -/
structure SubtitledDownload where
  low : String := ""
  high : String := ""
  internalLanguageCode : String := ""
  languageName : String := ""
deriving DecidableEq

/-- One node of the GraphQL response. -/
structure GQLNode where
  nativeDownloads : NativeDownloads := {}
  subtitledDownloads : List SubtitledDownload := []
deriving DecidableEq

/-- Outcome of the GraphQL POST: transport error (`client.Do`), body read
error (`io.ReadAll`), JSON decode error, or a decoded response carrying the
top-level `errors` messages and the `data.videos.nodes` list. -/
inductive GQLOutcome where
  | transportErr : GQLOutcome
  | readErr : GQLOutcome
  | decodeErr : GQLOutcome
  | response : List String → List GQLNode → GQLOutcome
deriving DecidableEq

/-- The subtitle-URL loop of `parseWithGraphQL`: for every entry with a
non-empty `low` URL, record `SubtitleURLs[lowercased code] = low`. -/
def subStep (m : StrMap) (sub : SubtitledDownload) : StrMap :=
  if sub.low == "" then m else mapInsert m (goToLower sub.internalLanguageCode) sub.low

/-- The subtitle map the structured-API path derives from the first node's
`subtitledDownloads` list. -/
def subtitleURLsOf (subs : List SubtitledDownload) : StrMap :=
  subs.foldl subStep []

/-- `parseWithGraphQL`: check transport, read and decode failures, then a
non-empty `errors` array, then zero nodes; otherwise build the talk from the
first node (English entry's `low`/`high` become `VideoURLs["720p"]`/`"1080p"`,
and the subtitle map is `subtitleURLsOf`), then fetch the HTML page once more
for the first `h1`/`h2` texts. Any failure is an `Except.error` with the
message prefix the source uses, and makes `ParseURL` fall back. -/
def parseWithGraphQL (url : String) (api : GQLOutcome) (pageFetch : PageFetch) :
    Except String Talk :=
  match api with
  | GQLOutcome.transportErr => Except.error "failed to send request"
  | GQLOutcome.readErr => Except.error "failed to read response"
  | GQLOutcome.decodeErr => Except.error "failed to decode response"
  | GQLOutcome.response (e :: _) _ => Except.error ("GraphQL error: " ++ e)
  | GQLOutcome.response [] [] => Except.error "no video data found"
  | GQLOutcome.response [] (node :: _) =>
    let vurls : StrMap :=
      match node.subtitledDownloads.find? (fun s => s.internalLanguageCode == "en") with
      | some sub => mapInsert (mapInsert [] "720p" sub.low) "1080p" sub.high
      | none => []
    let surls := subtitleURLsOf node.subtitledDownloads
    match pageFetch with
    | PageFetch.transportErr => Except.error "failed to fetch talk page"
    | PageFetch.readErr => Except.error "failed to read HTML response"
    | PageFetch.parseErr => Except.error "failed to parse talk page"
    | PageFetch.page _ doc =>
      Except.ok { Title := doc.h1, Speaker := doc.h2, URL := url,
                  VideoURLs := vurls, SubtitleURLs := surls }

/-! ## Markup fallback path (`parseWithHTML`) and `ParseURL` -/

/-- Result of a parser entry point: a value, a Go `error`, or a propagating
run-time panic. -/
inductive POutcome (α : Type) where
  | ok : α → POutcome α
  | err : String → POutcome α
  | panicked : POutcome α
deriving DecidableEq

/-- `parseWithHTML`: fetch the page, take the first `h1`/`h2` texts, run both
extractors, and fail with the explicit "no video or subtitle data found" error
when both maps are empty. The status code of a received response is never
inspected. -/
def parseWithHTML (url : String) (fetch : PageFetch) : POutcome Talk :=
  match fetch with
  | PageFetch.transportErr => POutcome.err "failed to fetch talk page"
  | PageFetch.readErr => POutcome.err "failed to read HTML response"
  | PageFetch.parseErr => POutcome.err "failed to parse talk page"
  | PageFetch.page _ doc =>
    match extractVideoURLs doc.scripts [] [] with
    | none => POutcome.panicked
    | some st =>
      let surls := extractSubtitleURLs doc.anchors
      if st.2.length == 0 && surls.length == 0 then
        POutcome.err "no video or subtitle data found"
      else
        POutcome.ok { Title := doc.h1, Speaker := doc.h2, URL := url,
                      VideoURLs := st.2, VideoFormats := st.1, SubtitleURLs := surls }

/-- The stripped URL: `strings.SplitN(url, "?", 2)[0]`. -/
def strippedURL (url : String) : String :=
  String.mk (upToChar url.data '?')

/-- The slug: last non-empty `/`-separated segment of the stripped URL
(empty when every segment is empty). -/
def urlSlug (url : String) : String :=
  match (splitChar (strippedURL url).data '/').reverse.find? (fun p => !p.isEmpty) with
  | some p => String.mk p
  | none => ""

/-- The validation of `ParseURL`: the slug must be non-empty, must not contain
a dot, and the stripped URL must contain the literal `/talks/`. -/
def invalidTalkURL (url : String) : Bool :=
  urlSlug url == "" || goContains (urlSlug url) "." || !(goContains (strippedURL url) "/talks/")

/-- `ParseURL`: validate the URL (before any network request — the result of
an invalid URL does not depend on any fetch outcome), try the GraphQL path,
and on any of its errors fall back to `parseWithHTML`. The two page fetches
(the one inside the GraphQL path and the fallback's own) are independent
outcomes. -/
def ParseURL (url : String) (api : GQLOutcome) (gqlPage htmlPage : PageFetch) :
    POutcome Talk :=
  if invalidTalkURL url then POutcome.err "invalid TED talk URL"
  else
    match parseWithGraphQL url api gqlPage with
    | Except.ok talk => POutcome.ok talk
    | Except.error _ => parseWithHTML url htmlPage

/-! ## Listing search (`ParseTopic`, `parseTalksList`, `parseTalkDetails`) -/

/-- One `.media__message` or `.search__result` block of a listing page: the
text of its title link (empty when the selection is empty), the speaker text,
the title link's optional `href`, and the outcome of fetching this talk's own
page for enrichment. Both listing flavours yield the same extracted fields,
only through different selectors. -/
structure ListingEntry where
  titleText : String
  speakerText : String
  href : Option String
  detail : PageFetch
deriving DecidableEq

/-- Outcome of fetching a listing page. -/
inductive ListingFetch where
  | transportErr : ListingFetch
  | parseErr : ListingFetch
  | page : Nat → List ListingEntry → ListingFetch
deriving DecidableEq

/-- The talk stub built from a listing entry alone: trimmed title and speaker,
and the href made absolute against the base URL when it does not start with
"http" (a missing href reads as the empty string). -/
def listingStub (e : ListingEntry) : Talk :=
  let u := e.href.getD ""
  { Title := goTrimSpace e.titleText, Speaker := goTrimSpace e.speakerText,
    URL := if goStartsWith u "http" then u else baseURL ++ u }

/-- `parseTalkDetails`: fetch the talk page and run both extractors on it,
mutating the passed talk. A body read failure while the markup parser streams
the response surfaces as the parse error (this path has no separate
`io.ReadAll`). Errors occur only before any mutation. -/
def parseTalkDetails (talk : Talk) (fetch : PageFetch) : POutcome Talk :=
  match fetch with
  | PageFetch.transportErr => POutcome.err "failed to fetch talk page"
  | PageFetch.readErr => POutcome.err "failed to parse talk page"
  | PageFetch.parseErr => POutcome.err "failed to parse talk page"
  | PageFetch.page _ doc =>
    match extractVideoURLs doc.scripts talk.VideoFormats talk.VideoURLs with
    | none => POutcome.panicked
    | some st =>
      POutcome.ok { talk with
                      VideoFormats := st.1, VideoURLs := st.2,
                      SubtitleURLs := extractSubtitleURLs doc.anchors }

/-- The `Each` loop of `parseTalksList`: entries with index at or beyond the
limit are skipped (the callback keeps running, it cannot stop the iteration);
a per-entry enrichment error is only warned about and the stub talk is
appended anyway; a panic aborts everything. -/
def runListing (limit : Int) : Nat → List Talk → List ListingEntry → Option (List Talk)
  | _, acc, [] => some acc
  | i, acc, e :: rest =>
    if limit ≤ (i : Int) then runListing limit (i + 1) acc rest
    else
      match parseTalkDetails (listingStub e) e.detail with
      | POutcome.ok t => runListing limit (i + 1) (acc ++ [t]) rest
      | POutcome.err _ => runListing limit (i + 1) (acc ++ [listingStub e]) rest
      | POutcome.panicked => none

/-- `parseTalksList`: fetch and parse the listing page, then run the entry
loop. -/
def parseTalksList (fetch : ListingFetch) (limit : Int) : POutcome (List Talk) :=
  match fetch with
  | ListingFetch.transportErr => POutcome.err "failed to fetch talks list"
  | ListingFetch.parseErr => POutcome.err "failed to parse HTML"
  | ListingFetch.page _ entries =>
    match runListing limit 0 [] entries with
    | some talks => POutcome.ok talks
    | none => POutcome.panicked

/-- `ParseTopic`: a query without a space character is fetched as a topic
listing, any other query as a search listing with spaces replaced by `+`. The
network is an oracle from the request URL to a listing fetch outcome. -/
def ParseTopic (query : String) (limit : Int) (env : String → ListingFetch) :
    POutcome (List Talk) :=
  if !(goContains query " ") then
    parseTalksList (env (baseURL ++ "/talks?topics[]=" ++ query)) limit
  else
    parseTalksList (env (baseURL ++ "/search?q=" ++ replaceChar query ' ' '+')) limit

/-! ## Map lemmas -/

/-- Inserting a key makes it found with the inserted value. -/
theorem mapFind_mapInsert_self (m : StrMap) (k v : String) :
    mapFind (mapInsert m k v) k = some v := by
  induction m with
  | nil => simp [mapInsert, mapFind]
  | cons p rest ih =>
    obtain ⟨k', v'⟩ := p
    by_cases h : k' = k
    · simp [mapInsert, mapFind, h]
    · simp [mapInsert, mapFind, h, ih]

/-- Inserting one key leaves the lookup of a different key unchanged. -/
theorem mapFind_mapInsert_ne (m : StrMap) (k q v : String) (h : q ≠ k) :
    mapFind (mapInsert m k v) q = mapFind m q := by
  have hkq : k ≠ q := fun hh => h hh.symm
  induction m with
  | nil => simp [mapInsert, mapFind, hkq]
  | cons p rest ih =>
    obtain ⟨k', v'⟩ := p
    by_cases hk : k' = k
    · subst hk
      simp [mapInsert, mapFind, hkq]
    · simp [mapInsert, mapFind, hk, ih]

/-- Insertion never yields the empty map. -/
theorem mapInsert_ne_nil (m : StrMap) (k v : String) : mapInsert m k v ≠ [] := by
  cases m with
  | nil => simp [mapInsert]
  | cons p rest =>
    obtain ⟨k', v'⟩ := p
    by_cases h : k' = k <;> simp [mapInsert, h]

/-! ## Claim C3 — invalid identifiers are rejected before any request -/

/-- C3 (confirmed): for every URL whose last non-empty path segment (after
stripping the query string) is empty, or contains a dot, or where the stripped
URL does not contain the literal `/talks/`, `ParseURL` returns the
"invalid TED talk URL" error — and the result does not depend on any network
outcome (all fetch outcomes are universally quantified), so no request is
issued. -/
theorem c3_invalid_identifier (url : String) (api : GQLOutcome) (gqlPage htmlPage : PageFetch)
    (h : urlSlug url = "" ∨ goContains (urlSlug url) "." = true
          ∨ goContains (strippedURL url) "/talks/" = false) :
    ParseURL url api gqlPage htmlPage = POutcome.err "invalid TED talk URL" := by
  have hb : invalidTalkURL url = true := by
    unfold invalidTalkURL
    rcases h with h | h | h <;> simp [h]
  unfold ParseURL
  rw [hb]
  simp

/-- Witness for C3 at a bare-domain URL (its slug `www.ted.com` contains a
dot). -/
theorem c3_witness :
    ParseURL "https://www.ted.com" GQLOutcome.transportErr PageFetch.transportErr
        PageFetch.transportErr
      = POutcome.err "invalid TED talk URL" :=
  c3_invalid_identifier "https://www.ted.com" GQLOutcome.transportErr PageFetch.transportErr
    PageFetch.transportErr (Or.inr (Or.inl (by decide)))

/-! ## Claim C1 — the non-emptiness invariant -/

/-- C1 (corrected), counterexample: the structured-API path returns a `Talk`
whose `VideoURLs`, `VideoFormats` and `SubtitleURLs` are all empty when the
first node's `subtitledDownloads` list is empty — resolution succeeds instead
of failing with an explicit error, so the claimed invariant does not hold on
that path. -/
theorem c1_counterexample :
    ParseURL "https://www.ted.com/talks/foo"
        (GQLOutcome.response [] [{ subtitledDownloads := [] }])
        (PageFetch.page 200 { h1 := "T", h2 := "S", scripts := [], anchors := [] })
        PageFetch.transportErr
      = POutcome.ok { Title := "T", Speaker := "S", URL := "https://www.ted.com/talks/foo",
                      VideoURLs := [], VideoFormats := [], SubtitleURLs := [] } := by
  decide

/-- C1 (corrected), amended: the invariant holds for every `Talk` returned by
the markup fallback path — on that path an all-empty record is replaced by the
explicit error, so a returned talk has a non-empty `VideoURLs` or a non-empty
`SubtitleURLs`. -/
theorem c1_markup_invariant (url : String) (fetch : PageFetch) (t : Talk)
    (h : parseWithHTML url fetch = POutcome.ok t) :
    t.VideoURLs ≠ [] ∨ t.SubtitleURLs ≠ [] := by
  cases fetch with
  | transportErr => simp [parseWithHTML] at h
  | readErr => simp [parseWithHTML] at h
  | parseErr => simp [parseWithHTML] at h
  | page st doc =>
    simp only [parseWithHTML] at h
    cases hx : extractVideoURLs doc.scripts [] [] with
    | none => rw [hx] at h; simp at h
    | some p =>
      rw [hx] at h
      dsimp only at h
      by_cases hc : (p.2.length == 0 && (extractSubtitleURLs doc.anchors).length == 0) = true
      · rw [if_pos hc] at h
        simp at h
      · rw [if_neg hc] at h
        have ht : t = _ := (POutcome.ok.inj h).symm
        subst ht
        simp only [Bool.and_eq_true, beq_iff_eq] at hc
        rw [not_and_or] at hc
        rcases hc with hc1 | hc1
        · exact Or.inl fun hnil => hc1 (by simp at hnil; simp [hnil])
        · exact Or.inr fun hnil => hc1 (by simp at hnil; simp [hnil])

/-- Witness for the amended C1: a fallback page carrying one subtitle anchor
yields a talk with a non-empty `SubtitleURLs`. -/
theorem c1_markup_invariant_witness :
    ({ Title := "T", Speaker := "S", URL := "u",
       SubtitleURLs := [("en", "http://s/en")] } : Talk).VideoURLs ≠ []
    ∨ ({ Title := "T", Speaker := "S", URL := "u",
         SubtitleURLs := [("en", "http://s/en")] } : Talk).SubtitleURLs ≠ [] :=
  c1_markup_invariant "u"
    (PageFetch.page 200 { h1 := "T", h2 := "S", scripts := [],
                          anchors := [{ lang := "en", href := some "http://s/en" }] })
    _ (by decide)

/-! ## Claim C7 — HTTP status on the markup path -/

/-- C7 (corrected), counterexample: a response with status 404 carrying a
subtitle anchor is parsed as a normal document and the markup path returns a
talk — a non-2xx status does not surface as an error. -/
theorem c7_counterexample :
    parseWithHTML "https://www.ted.com/talks/x"
        (PageFetch.page 404 { h1 := "T", h2 := "S", scripts := [],
                              anchors := [{ lang := "en", href := some "/sub/en" }] })
      = POutcome.ok { Title := "T", Speaker := "S", URL := "https://www.ted.com/talks/x",
                      SubtitleURLs := [("en", "https://www.ted.com/sub/en")] } := by
  decide

/-- C7 (corrected), amended: on the markup path a transport error surfaces as
an error to the caller, but the HTTP status code of a received response is
never inspected — the document is processed identically whatever the status
(both for `parseWithHTML` and for the listing path's `parseTalkDetails`). -/
theorem c7_amended (url : String) (st : Nat) (doc : HtmlDoc) (talk : Talk) :
    parseWithHTML url (PageFetch.page st doc) = parseWithHTML url (PageFetch.page 200 doc)
    ∧ parseWithHTML url PageFetch.transportErr = POutcome.err "failed to fetch talk page"
    ∧ parseTalkDetails talk (PageFetch.page st doc) = parseTalkDetails talk (PageFetch.page 200 doc)
    ∧ parseTalkDetails talk PageFetch.transportErr = POutcome.err "failed to fetch talk page" :=
  ⟨rfl, rfl, rfl, rfl⟩

/-! ## Claim C10 — the slice-bounds panic in `extractVideoURLs` -/

/-- C10 (confirmed): if any script contains the marker `talkPage.init`, has
both a `\x7b` and a `\x7d`, and its last `\x7d` lies more than one position
before its first `\x7b`, then the slice `text[start:end+1]` is out of bounds
and the whole extraction aborts with a run-time panic (the code only checks
that both indices are not -1). -/
theorem c10_slice_panic (scripts : List String) (text : String)
    (fmts : List VideoFormat) (urls : StrMap) (s e : Nat)
    (hmem : text ∈ scripts)
    (hmark : goContains text "talkPage.init" = true)
    (hfirst : firstIndexOf text.data '\x7b' = some s)
    (hlast : lastIndexOf text.data '\x7d' = some e)
    (hlt : e + 1 < s) :
    extractVideoURLs scripts fmts urls = none := by
  induction scripts generalizing fmts urls with
  | nil => cases hmem
  | cons a rest ih =>
    rcases List.mem_cons.mp hmem with rfl | hmem'
    · have hp : processScript fmts urls text = none := by
        unfold processScript
        rw [hmark, hfirst, hlast]
        simp [Nat.not_le.mpr hlt]
      unfold extractVideoURLs
      rw [hp]
    · cases hp : processScript fmts urls a with
      | none => unfold extractVideoURLs; rw [hp]
      | some st2 =>
        unfold extractVideoURLs
        rw [hp]
        exact ih st2.1 st2.2 hmem'

/-- Witness for C10: the script `"\x7d  talkPage.init  \x7b"` (last `\x7d` at
index 0, first `\x7b` at index 18) panics the extraction. -/
theorem c10_witness :
    extractVideoURLs ["\x7d  talkPage.init  \x7b"] [] [] = none :=
  c10_slice_panic ["\x7d  talkPage.init  \x7b"] "\x7d  talkPage.init  \x7b" [] [] 18 0
    (by decide) (by decide) (by decide) (by decide) (by decide)

/-! ## Claim C8 — topic versus search query dispatch -/

/-- Network oracle for the C8 counterexample: only the topic-listing URL for
the query `"a\tb"` answers with an (empty) listing page; every other URL
fails at the transport level. -/
def c8env : String → ListingFetch := fun u =>
  if u == "https://www.ted.com/talks?topics[]=a\tb" then ListingFetch.page 200 []
  else ListingFetch.transportErr

/-- C8 (corrected), counterexample: the query `"a\tb"` contains whitespace (a
tab) but no space character, so the code fetches the topic-listing URL and
succeeds, while the claim predicts the search URL (whose fetch outcome here is
a transport error) — the dispatch tests for a space, not for whitespace. -/
theorem c8_counterexample :
    ParseTopic "a\tb" 5 c8env = POutcome.ok []
    ∧ ParseTopic "a\tb" 5 c8env
        ≠ parseTalksList (c8env (baseURL ++ "/search?q=" ++ replaceChar "a\tb" ' ' '+')) 5 := by
  constructor
  · decide
  · decide

/-- C8 (corrected), amended: a query containing no space character is fetched
as `GET {base}/talks?topics[]={query}`; a query containing a space is fetched
as `GET {base}/search?q={query with spaces replaced by +}`. -/
theorem c8_amended (query : String) (limit : Int) (env : String → ListingFetch) :
    (goContains query " " = false →
      ParseTopic query limit env
        = parseTalksList (env (baseURL ++ "/talks?topics[]=" ++ query)) limit)
    ∧ (goContains query " " = true →
      ParseTopic query limit env
        = parseTalksList (env (baseURL ++ "/search?q=" ++ replaceChar query ' ' '+')) limit) := by
  constructor <;> intro h <;> simp [ParseTopic, h]

/-- Witness for the amended C8 at a one-word query and at a two-word query. -/
theorem c8_amended_witness :
    (ParseTopic "education" 3 (fun _ => ListingFetch.transportErr)
      = parseTalksList ((fun (_ : String) => ListingFetch.transportErr)
          (baseURL ++ "/talks?topics[]=" ++ "education")) 3)
    ∧ (ParseTopic "a b" 3 (fun _ => ListingFetch.transportErr)
      = parseTalksList ((fun (_ : String) => ListingFetch.transportErr)
          (baseURL ++ "/search?q=" ++ replaceChar "a b" ' ' '+')) 3) :=
  ⟨(c8_amended "education" 3 (fun _ => ListingFetch.transportErr)).1 (by decide),
   (c8_amended "a b" 3 (fun _ => ListingFetch.transportErr)).2 (by decide)⟩

/-! ## Claim C2 — fallback triggers and the EmptyResult condition -/

/-- The structured-API failure triggers listed by the claim: transport error,
non-empty top-level errors array, or zero result nodes. -/
def apiFailTrigger : GQLOutcome → Bool
  | GQLOutcome.transportErr => true
  | GQLOutcome.response (_ :: _) _ => true
  | GQLOutcome.response [] [] => true
  | _ => false

/-- C2 (confirmed): for a URL that passes validation, any of the listed
structured-API failures makes `ParseURL` return exactly the markup path's
result; and on a fetched page the markup path fails with the EmptyResult
error precisely when the extracted `VideoURLs` and `SubtitleURLs` are both
empty. -/
theorem c2_fallback_and_empty_result (url : String) (api : GQLOutcome)
    (gqlPage htmlPage : PageFetch) (st : Nat) (doc : HtmlDoc)
    (p : List VideoFormat × StrMap) :
    (invalidTalkURL url = false → apiFailTrigger api = true →
      ParseURL url api gqlPage htmlPage = parseWithHTML url htmlPage)
    ∧ (extractVideoURLs doc.scripts [] [] = some p →
      (parseWithHTML url (PageFetch.page st doc) = POutcome.err "no video or subtitle data found"
        ↔ p.2 = [] ∧ extractSubtitleURLs doc.anchors = [])) := by
  constructor
  · intro hv ht
    unfold ParseURL
    rw [hv]
    cases api with
    | transportErr => simp [parseWithGraphQL]
    | readErr => simp [apiFailTrigger] at ht
    | decodeErr => simp [apiFailTrigger] at ht
    | response errs nodes =>
      cases errs with
      | cons e es => simp [parseWithGraphQL]
      | nil =>
        cases nodes with
        | nil => simp [parseWithGraphQL]
        | cons n ns => simp [apiFailTrigger] at ht
  · intro hx
    simp only [parseWithHTML]
    rw [hx]
    dsimp only
    by_cases hc : (p.2.length == 0 && (extractSubtitleURLs doc.anchors).length == 0) = true
    · rw [if_pos hc]
      simp only [Bool.and_eq_true, beq_iff_eq, List.length_eq_zero] at hc
      simp [hc]
    · rw [if_neg hc]
      simp only [Bool.and_eq_true, beq_iff_eq, List.length_eq_zero] at hc
      constructor
      · intro h
        cases h
      · intro h
        exact absurd h hc

/-- Witness for C2: a transport-level API failure at a valid URL falls back,
and the empty document triggers the EmptyResult error. -/
theorem c2_witness :
    (ParseURL "https://www.ted.com/talks/foo" GQLOutcome.transportErr PageFetch.transportErr
        PageFetch.transportErr
      = parseWithHTML "https://www.ted.com/talks/foo" PageFetch.transportErr)
    ∧ (parseWithHTML "u" (PageFetch.page 200 { h1 := "", h2 := "", scripts := [], anchors := [] })
        = POutcome.err "no video or subtitle data found"
      ↔ (([], []) : List VideoFormat × StrMap).2 = []
        ∧ extractSubtitleURLs ({ h1 := "", h2 := "", scripts := [], anchors := [] } : HtmlDoc).anchors = []) :=
  ⟨(c2_fallback_and_empty_result "https://www.ted.com/talks/foo" GQLOutcome.transportErr
      PageFetch.transportErr PageFetch.transportErr 200
      { h1 := "", h2 := "", scripts := [], anchors := [] } ([], [])).1 (by decide) (by decide),
   (c2_fallback_and_empty_result "u" GQLOutcome.transportErr PageFetch.transportErr
      PageFetch.transportErr 200
      { h1 := "", h2 := "", scripts := [], anchors := [] } ([], [])).2 (by decide)⟩

/-! ## Claim C4 — English entry drives the video URLs -/

/-- C4 (confirmed): on the structured-API path, when the first node's
subtitled-downloads list has a first entry with internal language code "en"
(found by the first-match search the code performs), the returned talk maps
"720p" to that entry's `low` and "1080p" to its `high`. -/
theorem c4_english_video_urls (url : String) (st : Nat) (doc : HtmlDoc)
    (node : GQLNode) (rest : List GQLNode) (sub : SubtitledDownload) (t : Talk)
    (hfind : node.subtitledDownloads.find? (fun s => s.internalLanguageCode == "en") = some sub)
    (hok : parseWithGraphQL url (GQLOutcome.response [] (node :: rest)) (PageFetch.page st doc)
             = Except.ok t) :
    mapFind t.VideoURLs "720p" = some sub.low ∧ mapFind t.VideoURLs "1080p" = some sub.high := by
  simp only [parseWithGraphQL] at hok
  rw [hfind] at hok
  have ht : t = _ := (Except.ok.inj hok).symm
  subst ht
  constructor
  · rfl
  · rfl

/-- Witness for C4 at a node whose only entry is English with tiers "L" and
"H". -/
theorem c4_witness :
    mapFind [("720p", "L"), ("1080p", "H")] "720p" = some "L"
    ∧ mapFind [("720p", "L"), ("1080p", "H")] "1080p" = some "H" :=
  c4_english_video_urls "u" 200 { h1 := "", h2 := "", scripts := [], anchors := [] }
    { subtitledDownloads := [{ low := "L", high := "H", internalLanguageCode := "en" }] } []
    { low := "L", high := "H", internalLanguageCode := "en" }
    { Title := "", Speaker := "", URL := "u",
      VideoURLs := [("720p", "L"), ("1080p", "H")],
      SubtitleURLs := [("en", "L")] }
    (by decide) (by rfl)

/-! ## Claim C5 — the subtitle map of the structured-API path -/

/-- Folding `subStep` over entries none of which writes the key `k` leaves the
lookup of `k` unchanged. -/
theorem subFold_find_of_absent (subs : List SubtitledDownload) (m : StrMap) (k : String)
    (h : ∀ s ∈ subs, ¬(s.low = "") → goToLower s.internalLanguageCode ≠ k) :
    mapFind (subs.foldl subStep m) k = mapFind m k := by
  induction subs generalizing m with
  | nil => rfl
  | cons y rest ih =>
    rw [List.foldl_cons]
    rw [ih (subStep m y) (fun s hs => h s (List.mem_cons_of_mem _ hs))]
    by_cases hy : y.low = ""
    · simp [subStep, hy]
    · have hne := h y (List.mem_cons_self _ _) hy
      have : (y.low == "") = false := by simpa using hy
      rw [subStep, if_neg (by simp [this])]
      exact mapFind_mapInsert_ne m _ k _ (fun hh => hne hh.symm)

/-- If the lowercased codes of the entries with a non-empty `low` are pairwise
distinct, folding `subStep` maps each such entry's lowercased code to its own
`low` URL. -/
theorem subFold_find_of_mem (subs : List SubtitledDownload) (m : StrMap)
    (sub : SubtitledDownload) (hmem : sub ∈ subs) (hlow : ¬(sub.low = ""))
    (hnd : ((subs.filter (fun s => !(s.low == ""))).map
              (fun s => goToLower s.internalLanguageCode)).Nodup) :
    mapFind (subs.foldl subStep m) (goToLower sub.internalLanguageCode) = some sub.low := by
  induction subs generalizing m with
  | nil => cases hmem
  | cons y rest ih =>
    rw [List.foldl_cons]
    rcases List.mem_cons.mp hmem with rfl | hmem'
    · have hfy : (!(sub.low == "")) = true := by simpa using hlow
      rw [List.filter_cons, if_pos hfy, List.map_cons, List.nodup_cons] at hnd
      obtain ⟨hnotmem, _⟩ := hnd
      rw [subFold_find_of_absent rest (subStep m sub) (goToLower sub.internalLanguageCode)
        (by
          intro s hs hslow heq
          exact hnotmem (heq ▸ List.mem_map_of_mem _
            (List.mem_filter.mpr ⟨hs, by simpa using hslow⟩)))]
      have : (sub.low == "") = false := by simpa using hlow
      rw [subStep, if_neg (by simp [this])]
      exact mapFind_mapInsert_self m _ sub.low
    · have hnd2 : ((rest.filter (fun s => !(s.low == ""))).map
          (fun s => goToLower s.internalLanguageCode)).Nodup := by
        rw [List.filter_cons] at hnd
        by_cases hy : (!(y.low == "")) = true
        · rw [if_pos hy, List.map_cons, List.nodup_cons] at hnd
          exact hnd.2
        · rwa [if_neg hy] at hnd
      exact ih (subStep m y) hmem' hnd2

/-- C5 (corrected), counterexample: with the first node's subtitle entries
`[{code "en", low "A"}, {code "EN", low "B"}]` both lowercase to the key
"en", and the later entry overwrites the earlier one, so the returned
`SubtitleURLs["en"]` is "B" — not the entry-wise value "A" the claim asserts
for the first entry. -/
theorem c5_counterexample :
    (match parseWithGraphQL "u"
        (GQLOutcome.response [] [{ subtitledDownloads :=
            [{ low := "A", internalLanguageCode := "en" },
             { low := "B", internalLanguageCode := "EN" }] }])
        (PageFetch.page 200 { h1 := "", h2 := "", scripts := [], anchors := [] }) with
      | Except.ok t => mapFind t.SubtitleURLs "en"
      | Except.error _ => none)
      ≠ some "A"
    ∧ (match parseWithGraphQL "u"
        (GQLOutcome.response [] [{ subtitledDownloads :=
            [{ low := "A", internalLanguageCode := "en" },
             { low := "B", internalLanguageCode := "EN" }] }])
        (PageFetch.page 200 { h1 := "", h2 := "", scripts := [], anchors := [] }) with
      | Except.ok t => mapFind t.SubtitleURLs "en"
      | Except.error _ => none)
      = some "B" := by
  constructor
  · decide
  · decide

/-- C5 (corrected), amended: the talk's subtitle map is exactly
`subtitleURLsOf` of the first node's entries — computed independently of
`VideoURLs`; when the lowercased codes of the entries with non-empty `low`
URLs are pairwise distinct, every such entry is mapped to its own `low` URL
(otherwise the last entry with a given lowercased code wins); and a key
written by no entry with a non-empty `low` is absent. -/
theorem c5_amended :
    (∀ (url : String) (st : Nat) (doc : HtmlDoc) (node : GQLNode)
        (rest : List GQLNode) (t : Talk),
      parseWithGraphQL url (GQLOutcome.response [] (node :: rest)) (PageFetch.page st doc)
          = Except.ok t →
      t.SubtitleURLs = subtitleURLsOf node.subtitledDownloads)
    ∧ (∀ (subs : List SubtitledDownload) (sub : SubtitledDownload),
      sub ∈ subs → ¬(sub.low = "") →
      ((subs.filter (fun s => !(s.low == ""))).map
          (fun s => goToLower s.internalLanguageCode)).Nodup →
      mapFind (subtitleURLsOf subs) (goToLower sub.internalLanguageCode) = some sub.low)
    ∧ (∀ (subs : List SubtitledDownload) (k : String),
      (∀ s ∈ subs, ¬(s.low = "") → goToLower s.internalLanguageCode ≠ k) →
      mapFind (subtitleURLsOf subs) k = none) := by
  refine ⟨?_, ?_, ?_⟩
  · intro url st doc node rest t hok
    simp only [parseWithGraphQL] at hok
    have ht : t = _ := (Except.ok.inj hok).symm
    subst ht
    rfl
  · intro subs sub hmem hlow hnd
    exact subFold_find_of_mem subs [] sub hmem hlow hnd
  · intro subs k h
    exact (subFold_find_of_absent subs [] k h).trans rfl

/-- Witness for the amended C5 at the spec's own example
`[{code "en", low "A"}, {code "zh-cn", low "B"}]`. -/
theorem c5_amended_witness :
    (({ Title := "", Speaker := "", URL := "u",
        VideoURLs := [("720p", "A"), ("1080p", "")],
        SubtitleURLs := [("en", "A"), ("zh-cn", "B")] } : Talk).SubtitleURLs
      = subtitleURLsOf [{ low := "A", internalLanguageCode := "en" },
                        { low := "B", internalLanguageCode := "zh-cn" }])
    ∧ mapFind (subtitleURLsOf [{ low := "A", internalLanguageCode := "en" },
                               { low := "B", internalLanguageCode := "zh-cn" }])
        (goToLower "zh-cn") = some "B"
    ∧ mapFind (subtitleURLsOf [{ low := "A", internalLanguageCode := "en" },
                               { low := "B", internalLanguageCode := "zh-cn" }])
        "fr" = none :=
  ⟨c5_amended.1 "u" 200 { h1 := "", h2 := "", scripts := [], anchors := [] }
      { subtitledDownloads := [{ low := "A", internalLanguageCode := "en" },
                               { low := "B", internalLanguageCode := "zh-cn" }] } []
      { Title := "", Speaker := "", URL := "u",
        VideoURLs := [("720p", "A"), ("1080p", "")],
        SubtitleURLs := [("en", "A"), ("zh-cn", "B")] } (by rfl),
   c5_amended.2.1 [{ low := "A", internalLanguageCode := "en" },
                   { low := "B", internalLanguageCode := "zh-cn" }]
      { low := "B", internalLanguageCode := "zh-cn" } (by decide) (by decide) (by decide),
   c5_amended.2.2 [{ low := "A", internalLanguageCode := "en" },
                   { low := "B", internalLanguageCode := "zh-cn" }] "fr" (by decide)⟩

/-! ## Claim C6 — embedded-script extraction -/

set_option maxRecDepth 8000 in
/-- C6 (corrected), counterexample: a document with two scripts both
containing `talkPage.init` (one `h264` entry each) yields entries from both
scripts — a result different from what the first matching script alone
produces, so extraction is not "from the first matching script only". -/
theorem c6_counterexample :
    extractVideoURLs
        ["talkPage.init(\x7b\"playerData\":\x7b\"talks\":[\x7b\"player_talks\":[\x7b\"resources\":\x7b\"h264\":[\x7b\"quality\":\"480p\",\"size\":4,\"file\":\"uA\"\x7d]\x7d\x7d]\x7d]\x7d\x7d)",
         "talkPage.init(\x7b\"playerData\":\x7b\"talks\":[\x7b\"player_talks\":[\x7b\"resources\":\x7b\"h264\":[\x7b\"quality\":\"360p\",\"size\":3,\"file\":\"uB\"\x7d]\x7d\x7d]\x7d]\x7d\x7d)"]
        [] []
      ≠ extractVideoURLs
        ["talkPage.init(\x7b\"playerData\":\x7b\"talks\":[\x7b\"player_talks\":[\x7b\"resources\":\x7b\"h264\":[\x7b\"quality\":\"480p\",\"size\":4,\"file\":\"uA\"\x7d]\x7d\x7d]\x7d]\x7d\x7d)"]
        [] []
    ∧ extractVideoURLs
        ["talkPage.init(\x7b\"playerData\":\x7b\"talks\":[\x7b\"player_talks\":[\x7b\"resources\":\x7b\"h264\":[\x7b\"quality\":\"480p\",\"size\":4,\"file\":\"uA\"\x7d]\x7d\x7d]\x7d]\x7d\x7d)",
         "talkPage.init(\x7b\"playerData\":\x7b\"talks\":[\x7b\"player_talks\":[\x7b\"resources\":\x7b\"h264\":[\x7b\"quality\":\"360p\",\"size\":3,\"file\":\"uB\"\x7d]\x7d\x7d]\x7d]\x7d\x7d)"]
        [] []
      = some ([{ Quality := "480p", URL := "uA", Size := 4 },
               { Quality := "360p", URL := "uB", Size := 3 }],
              [("480p", "uA"), ("360p", "uB")]) := by
  constructor
  · decide
  · decide

/-- One step of `extractVideoURLs` (the definitional cons equation, stated so
that the scrutinee is exposed for rewriting). -/
theorem extractVideoURLs_cons (a : String) (rest : List String)
    (fmts : List VideoFormat) (urls : StrMap) :
    extractVideoURLs (a :: rest) fmts urls
      = match processScript fmts urls a with
        | none => none
        | some st => extractVideoURLs rest st.1 st.2 := rfl

set_option maxRecDepth 8000 in
/-- C6 (corrected), amended: extraction scans every script; each script
containing `talkPage.init` is processed — in document order, threading the
accumulated formats and URL map — decoding the substring from its first `\x7b`
to its last `\x7d` inclusive; each decoded `h264` entry appends a
`VideoFormat` preserving the JSON order and sets `VideoURLs[quality] = file`
(shown concretely on the spec's two-entry example). -/
theorem c6_amended :
    (∀ (xs ys : List String) (fmts : List VideoFormat) (urls : StrMap),
      extractVideoURLs (xs ++ ys) fmts urls
        = (extractVideoURLs xs fmts urls).bind (fun st => extractVideoURLs ys st.1 st.2))
    ∧ extractVideoURLs
        ["talkPage.init(\x7b\"playerData\":\x7b\"talks\":[\x7b\"player_talks\":[\x7b\"resources\":\x7b\"h264\":[\x7b\"quality\":\"1080p\",\"size\":10,\"file\":\"fA\"\x7d,\x7b\"quality\":\"720p\",\"size\":7,\"file\":\"fB\"\x7d]\x7d\x7d]\x7d]\x7d\x7d)"]
        [] []
      = some ([{ Quality := "1080p", URL := "fA", Size := 10 },
               { Quality := "720p", URL := "fB", Size := 7 }],
              [("1080p", "fA"), ("720p", "fB")]) := by
  constructor
  · intro xs ys fmts urls
    induction xs generalizing fmts urls with
    | nil => rfl
    | cons a rest ih =>
      rw [List.cons_append, extractVideoURLs_cons, extractVideoURLs_cons]
      cases hps : processScript fmts urls a with
      | none => rfl
      | some st => exact ih st.1 st.2
  · decide

/-! ## Claim C9 — listing enrichment failures do not abort the batch -/

/-- Modelled on the spec's words for comparison with `parseTalksList`: each
listed entry with index below the limit contributes its enriched talk when
per-entry enrichment succeeds, and otherwise the stub with the title, speaker
and URL already extracted from the listing — a failed entry never aborts the
batch. -/
def listingTalksSpec (limit : Int) : Nat → List ListingEntry → List Talk
  | _, [] => []
  | i, e :: rest =>
    if limit ≤ (i : Int) then listingTalksSpec limit (i + 1) rest
    else
      (match parseTalkDetails (listingStub e) e.detail with
       | POutcome.ok t => t
       | _ => listingStub e) :: listingTalksSpec limit (i + 1) rest

/-- The entry loop agrees with the spec-side description whenever no entry
panics. -/
theorem runListing_eq_spec (limit : Int) (entries : List ListingEntry)
    (i : Nat) (acc : List Talk)
    (h : ∀ e ∈ entries, parseTalkDetails (listingStub e) e.detail ≠ POutcome.panicked) :
    runListing limit i acc entries = some (acc ++ listingTalksSpec limit i entries) := by
  induction entries generalizing i acc with
  | nil => simp [runListing, listingTalksSpec]
  | cons e rest ih =>
    by_cases hi : limit ≤ (i : Int)
    · rw [runListing, if_pos hi, listingTalksSpec, if_pos hi]
      exact ih (i + 1) acc (fun x hx => h x (List.mem_cons_of_mem _ hx))
    · rw [runListing, if_neg hi, listingTalksSpec, if_neg hi]
      cases hd : parseTalkDetails (listingStub e) e.detail with
      | ok t =>
        dsimp only
        rw [ih (i + 1) (acc ++ [t]) (fun x hx => h x (List.mem_cons_of_mem _ hx))]
        simp
      | err msg =>
        dsimp only
        rw [ih (i + 1) (acc ++ [listingStub e]) (fun x hx => h x (List.mem_cons_of_mem _ hx))]
        simp
      | panicked => exact absurd hd (h e (List.mem_cons_self _ _))

/-- C9 (confirmed): when no entry panics, the batch always succeeds and every
considered entry is present — an entry whose enrichment fails is included as
the stub carrying the Title, Speaker and URL already extracted from the
listing (the error is only warned about), as `listingTalksSpec` states. -/
theorem c9_enrichment_failure_kept (st : Nat) (entries : List ListingEntry) (limit : Int)
    (h : ∀ e ∈ entries, parseTalkDetails (listingStub e) e.detail ≠ POutcome.panicked) :
    parseTalksList (ListingFetch.page st entries) limit
      = POutcome.ok (listingTalksSpec limit 0 entries) := by
  unfold parseTalksList
  dsimp only
  rw [runListing_eq_spec limit entries 0 [] h]
  simp

/-- Witness for C9: a two-entry listing whose first entry's enrichment fails
at the transport level still returns both talks, the first as its listing
stub. -/
theorem c9_witness :
    parseTalksList (ListingFetch.page 200
        [{ titleText := " T1 ", speakerText := "S1", href := some "/talks/t1",
           detail := PageFetch.transportErr },
         { titleText := "T2", speakerText := "S2", href := some "http://x/t2",
           detail := PageFetch.page 200
             { h1 := "", h2 := "", scripts := [],
               anchors := [{ lang := "en", href := some "http://s/en" }] } }]) 5
      = POutcome.ok (listingTalksSpec 5 0
        [{ titleText := " T1 ", speakerText := "S1", href := some "/talks/t1",
           detail := PageFetch.transportErr },
         { titleText := "T2", speakerText := "S2", href := some "http://x/t2",
           detail := PageFetch.page 200
             { h1 := "", h2 := "", scripts := [],
               anchors := [{ lang := "en", href := some "http://s/en" }] } }]) :=
  c9_enrichment_failure_kept 200
    [{ titleText := " T1 ", speakerText := "S1", href := some "/talks/t1",
       detail := PageFetch.transportErr },
     { titleText := "T2", speakerText := "S2", href := some "http://x/t2",
       detail := PageFetch.page 200
         { h1 := "", h2 := "", scripts := [],
           anchors := [{ lang := "en", href := some "http://s/en" }] } }] 5
    (by decide)
